import Mathlib

/-!
# CPU fan controller (`main.go`): hysteresis loop, sensor parsing, GPIO lifecycle

A shallow embedding of `src/main.go`.

* Temperatures are rationals.  `readCPUTemp` computes `float64(tempRaw) / 1000.0`; the
  embedding returns the exact quotient `tempRaw / 1000`.  Both thresholds (`56.0`, `55.5`)
  are binary floating-point numbers and rounding is monotone, so the comparisons
  `temp >= fanOnTemp` and `temp <= fanOffTemp` have the same outcome on the rounded and on
  the exact quotient.  The quotient of an `int` by `1000.0` is finite: no NaN, no infinity.
* The effects of a run (GPIO calls, log lines, sleeps, process exit) are recorded in a
  trace of `Event`s, oldest first.  The outcome of every environment call (file read, chip
  open, line request, line write) is an input of the model.
* The sensor file content is a list of Unicode characters (a valid UTF-8 text).
-/

namespace FanControl

/-! ## Constants (`main.go` lines 15-23) -/

/-- The constant `lineNumber`. -/
def lineNumber : Nat := 78

/-- The constant `fanOnTemp`. -/
def fanOnTemp : ℚ := 56.0

/-- The constant `fanOffTemp`. -/
def fanOffTemp : ℚ := 55.5

/-! ## Go library functions used by `readCPUTemp` -/

/-- The error kinds of `strconv.NumError`: `ErrSyntax` and `ErrRange`. -/
inductive NumError
  | invalidDigits
  | outOfRange
  deriving DecidableEq

/-- The predicate `unicode.IsSpace`: the Unicode White_Space code points. -/
def isSpace (c : Char) : Bool :=
  let r := c.toNat
  (0x09 ≤ r && r ≤ 0x0D) || r == 0x20 || r == 0x85 || r == 0xA0 || r == 0x1680 ||
    (0x2000 ≤ r && r ≤ 0x200A) || r == 0x2028 || r == 0x2029 || r == 0x202F ||
    r == 0x205F || r == 0x3000

/-- The function `strings.TrimSpace`: all leading and trailing white space removed. -/
def TrimSpace (s : List Char) : List Char :=
  ((s.dropWhile isSpace).reverse.dropWhile isSpace).reverse

/-- The constant `maxUint64`. -/
def maxUint64 : Nat := 2 ^ 64 - 1

/-- The digit loop of `strconv.ParseUint` for base 10 on `uint64` arithmetic: `n` is the
accumulator, the result is the pair `(value, err)` that Go returns. -/
def parseUintLoop (maxVal : Nat) : List Char → Nat → Nat × Option NumError
  | [], n => (n, none)
  | c :: cs, n =>
    if '0' ≤ c ∧ c ≤ '9' then
      let d := c.toNat - '0'.toNat
      if n ≥ maxUint64 / 10 + 1 then (maxVal, some .outOfRange)
      else
        let n10 := n * 10 % 2 ^ 64
        let n1 := (n10 + d) % 2 ^ 64
        if n1 < n10 ∨ n1 > maxVal then (maxVal, some .outOfRange)
        else parseUintLoop maxVal cs n1
    else (0, some .invalidDigits)

/-- The call `strconv.ParseUint(s, 10, 0)` where `strconv.IntSize = intSize`. -/
def ParseUint (intSize : Nat) (s : List Char) : Nat × Option NumError :=
  if s = [] then (0, some .invalidDigits)
  else parseUintLoop ((2 ^ intSize % 2 ^ 64 + 2 ^ 64 - 1) % 2 ^ 64) s 0

/-- Conversion of an integer to a two's complement integer of `w` bits. -/
def wrapInt (w : Nat) (x : Int) : Int :=
  (x + 2 ^ (w - 1)) % 2 ^ w - 2 ^ (w - 1)

/-- The call `strconv.ParseInt(s, 10, 0)` where `strconv.IntSize = intSize`. -/
def ParseInt (intSize : Nat) (s : List Char) : Int × Option NumError :=
  match s with
  | [] => (0, some .invalidDigits)
  | c :: rest =>
    let neg := c == '-'
    let s1 := if c == '+' || c == '-' then rest else s
    let (un, err) := ParseUint intSize s1
    if err = some .invalidDigits then (0, err)
    else
      let cutoff := 2 ^ (intSize - 1)
      if !neg && un ≥ cutoff then ((cutoff : Int) - 1, some .outOfRange)
      else if neg && un > cutoff then (-(cutoff : Int), some .outOfRange)
      else
        let n := wrapInt 64 un
        (if neg then wrapInt 64 (-n) else n, none)

/-- The function `strconv.Atoi`: `ParseInt(s, 10, 0)` converted to type `int`. -/
def Atoi (intSize : Nat) (s : List Char) : Int × Option NumError :=
  let (i64, err) := ParseInt intSize s
  (wrapInt intSize i64, err)

/-! ## `readCPUTemp` (`main.go` lines 27-41) -/

/-- The two ways `readCPUTemp` fails: the file cannot be read, or its content does not
parse. -/
inductive TempError
  | readFile
  | parse (e : NumError)
  deriving DecidableEq

/-- The function `readCPUTemp`.  `file` is the result of `ioutil.ReadFile(tempPath)`:
`none` when the read fails, the content otherwise. -/
def readCPUTemp (intSize : Nat) (file : Option (List Char)) : Except TempError ℚ :=
  match file with
  | none => .error .readFile
  | some content =>
    let tempStr := TrimSpace content
    match Atoi intSize tempStr with
    | (_, some e) => .error (.parse e)
    | (tempRaw, none) => .ok ((tempRaw : ℚ) / 1000)

/-! ## Effects -/

/-- The log lines of `main`. -/
inductive LogMsg
  | chipOpenFatal
  | lineRequestFatal
  | releaseWarning
  | readTempError
  | setOnError
  | setOffError
  deriving DecidableEq

/-- The observable effects of `main`, each with the outcome the environment gave. -/
inductive Event
  | newChip (ok : Bool)
  | requestLine (offset : Nat) (initial : Nat) (ok : Bool)
  | setValue (v : Nat) (ok : Bool)
  | lineClose
  | chipClose
  | logPrintf (m : LogMsg)
  | sleep
  | osExit (code : Nat)
  deriving DecidableEq

/-- The GPIO writes (`line.SetValue`) of a trace, with their outcomes, oldest first. -/
def gpioWrites (tr : List Event) : List (Nat × Bool) :=
  tr.filterMap fun e =>
    match e with
    | .setValue v ok => some (v, ok)
    | _ => none

/-- One step of the line level: a successful request as output sets the initial value, a
successful `SetValue v` sets `v`, everything else (a failed write included) leaves it. -/
def levelStep (lvl : Nat) (e : Event) : Nat :=
  match e with
  | .requestLine _ initial true => initial
  | .setValue v true => v
  | _ => lvl

/-- The physical level of the line after a trace. -/
def lineLevel (tr : List Event) : Nat :=
  tr.foldl levelStep 0

/-! ## The loop of `main` (`main.go` lines 76-111) -/

/-- The state of the loop: the variable `fanIsOn` and the effects so far. -/
structure State where
  fanIsOn : Bool
  trace : List Event

/-- One iteration of the `for` loop.  `r` is the result of `readCPUTemp()`, `writeOk`
tells whether the call of `line.SetValue`, if one is made, succeeds. -/
def iteration (r : Except TempError ℚ) (writeOk : Bool) (s : State) : State :=
  match r with
  | .error _ => { s with trace := s.trace ++ [.logPrintf .readTempError, .sleep] }
  | .ok temp =>
    if temp ≥ fanOnTemp ∧ s.fanIsOn = false then
      if writeOk then
        { fanIsOn := true, trace := s.trace ++ [.setValue 1 true, .sleep] }
      else
        { s with trace := s.trace ++ [.setValue 1 false, .logPrintf .setOnError, .sleep] }
    else if temp ≤ fanOffTemp ∧ s.fanIsOn = true then
      if writeOk then
        { fanIsOn := false, trace := s.trace ++ [.setValue 0 true, .sleep] }
      else
        { s with trace := s.trace ++ [.setValue 0 false, .logPrintf .setOffError, .sleep] }
    else { s with trace := s.trace ++ [.sleep] }

/-- The iterations of the loop on a list of inputs, one pair (read result, write outcome)
per iteration. -/
def loop (cycles : List (Except TempError ℚ × Bool)) (s : State) : State :=
  cycles.foldl (fun st c => iteration c.1 c.2 st) s

/-- The state in which the loop is entered: both acquisitions succeeded, line 78 was
requested as output with value 0, `fanIsOn := false`. -/
def loopEntry : State :=
  { fanIsOn := false, trace := [.newChip true, .requestLine lineNumber 0 true] }

/-! ## `main` (`main.go` lines 43-112) -/

/-- The two deferred functions of `main`. -/
inductive Deferred
  | closeChip
  | releaseLine
  deriving DecidableEq

/-- The body of a deferred function.  `writeOk` is the outcome of the `line.SetValue(0)` of
the line's deferred function.  (`chip` and `line` are not nil where these are registered.) -/
def runDeferred (writeOk : Bool) : Deferred → List Event
  | .closeChip => [.chipClose]
  | .releaseLine =>
    if writeOk then [.setValue 0 true, .lineClose]
    else [.setValue 0 false, .logPrintf .releaseWarning, .lineClose]

/-- The deferred functions of a stack, run last registered first, as Go does when the
function returns or panics.  The stack lists the last registered first. -/
def unwind (writeOk : Bool) (stack : List Deferred) : List Event :=
  stack.flatMap (runDeferred writeOk)

/-- One polling cycle as the environment decides it: the result of reading the sensor file
and the outcome of a GPIO write. -/
structure Cycle where
  file : Option (List Char)
  writeOk : Bool

/-- The environment of a run of `main`: the size of `int`, the outcomes of `NewChip` and
`RequestLine`, and the polling cycles that take place before the process is terminated from
outside (the loop has no exit of its own). -/
structure Env where
  intSize : Nat
  chipOk : Bool
  lineOk : Bool
  cycles : List Cycle

/-- What a run of `main` leaves behind: the variable `fanIsOn`, the effects, the deferred
functions registered and never run (last registered first), and the exit status when the
process exited by itself. -/
structure Run where
  fanIsOn : Bool
  trace : List Event
  pending : List Deferred
  exitCode : Option Nat

/-- The call `log.Fatalf`: the message is printed and `os.Exit(1)` ends the process at
once; deferred functions are not run. -/
def logFatalf (m : LogMsg) (r : Run) : Run :=
  { r with trace := r.trace ++ [.logPrintf m, .osExit 1], exitCode := some 1 }

/-- The function `main`. -/
def main (env : Env) : Run :=
  if env.chipOk = false then
    logFatalf .chipOpenFatal
      { fanIsOn := false, trace := [.newChip false], pending := [], exitCode := none }
  else if env.lineOk = false then
    logFatalf .lineRequestFatal
      { fanIsOn := false, trace := [.newChip true, .requestLine lineNumber 0 false],
        pending := [.closeChip], exitCode := none }
  else
    let s := loop (env.cycles.map fun c => (readCPUTemp env.intSize c.file, c.writeOk))
      loopEntry
    { fanIsOn := s.fanIsOn, trace := s.trace, pending := [.releaseLine, .closeChip],
      exitCode := none }

/-! ## Notions used to state the properties -/

/-- The decimal numeral of an integer: the digits of its absolute value, after a `-` when
it is negative. -/
def decimal (n : Int) : List Char :=
  if n < 0 then '-' :: Nat.toDigits 10 n.natAbs else Nat.toDigits 10 n.natAbs

/-- A base-10 integer numeral: an optional sign followed by one decimal digit or more. -/
def validDecimal (s : List Char) : Bool :=
  match s with
  | [] => false
  | c :: rest =>
    if c = '+' ∨ c = '-' then !rest.isEmpty && rest.all Char.isDigit
    else s.all Char.isDigit

/-- The fan states recorded after each of a list of successful readings, every write
succeeding. -/
def recordedStates (readings : List ℚ) (s : State) : List Bool :=
  match readings with
  | [] => []
  | t :: ts =>
    let s1 := iteration (.ok t) true s
    s1.fanIsOn :: recordedStates ts s1

/-- The value of a list of decimal digits read after the accumulator `acc`. -/
def digitsValue (acc : Nat) (cs : List Char) : Nat :=
  cs.foldl (fun a c => a * 10 + (c.toNat - '0'.toNat)) acc

/-- A decimal digit, as `ParseUint` tests it. -/
def IsDigit (c : Char) : Prop := '0' ≤ c ∧ c ≤ '9'

/-- The recorded state agrees with the level of the line. -/
def Agrees (s : State) : Prop :=
  lineLevel s.trace = if s.fanIsOn then 1 else 0

/-- Two states with the same recorded fan state and the same GPIO writes. -/
def SameActuation (a b : State) : Prop :=
  a.fanIsOn = b.fanIsOn ∧ gpioWrites a.trace = gpioWrites b.trace

/-- The read of a cycle succeeded. -/
def readOk (c : Except TempError ℚ × Bool) : Bool :=
  match c.1 with
  | .ok _ => true
  | .error _ => false

/-! ## Basic facts -/

theorem fanOnTemp_eq : fanOnTemp = 56 := by
  unfold fanOnTemp; norm_num

theorem fanOffTemp_eq : fanOffTemp = 111 / 2 := by
  unfold fanOffTemp; norm_num

/-- The variable `fanIsOn` after an iteration with a successful read and a successful
write. -/
theorem iteration_ok_fanIsOn (t : ℚ) (s : State) :
    (iteration (.ok t) true s).fanIsOn =
      if 56 ≤ t ∧ s.fanIsOn = false then true
      else if t ≤ 111 / 2 ∧ s.fanIsOn = true then false
      else s.fanIsOn := by
  simp only [iteration, fanOnTemp_eq, fanOffTemp_eq, ge_iff_le, if_true]
  split_ifs <;> rfl

/-! ## The hysteresis decision -/

/-- C1, as stated, fails at both endpoints of the closed band: `t = 56` is in the band and
an iteration with a successful read and write switches a fan that is off to on; `t = 55.5`
is in the band and the iteration switches a fan that is on to off. -/
theorem deadband_closed_fails :
    (fanOffTemp ≤ 56 ∧ (56 : ℚ) ≤ fanOnTemp ∧
      (iteration (.ok 56) true { fanIsOn := false, trace := [] }).fanIsOn ≠ false) ∧
    (fanOffTemp ≤ 55.5 ∧ (55.5 : ℚ) ≤ fanOnTemp ∧
      (iteration (.ok 55.5) true { fanIsOn := true, trace := [] }).fanIsOn ≠ true) := by
  simp only [iteration_ok_fanIsOn, fanOnTemp_eq, fanOffTemp_eq]
  norm_num

/-- C1, amended: on the closed band `fanOffTemp ≤ t ≤ fanOnTemp` an iteration with a
successful read and write keeps the recorded state, except where a transition is due at
an endpoint (`t = fanOnTemp` with the fan off, `t = fanOffTemp` with the fan on). -/
theorem deadband_keeps_state (t : ℚ) (s : State)
    (hlo : fanOffTemp ≤ t) (hhi : t ≤ fanOnTemp)
    (hon : ¬ (t = fanOnTemp ∧ s.fanIsOn = false))
    (hoff : ¬ (t = fanOffTemp ∧ s.fanIsOn = true)) :
    (iteration (.ok t) true s).fanIsOn = s.fanIsOn := by
  rw [iteration_ok_fanIsOn]
  rw [fanOnTemp_eq] at hhi hon
  rw [fanOffTemp_eq] at hlo hoff
  split_ifs with h1 h2
  · exact absurd ⟨le_antisymm hhi h1.1, h1.2⟩ hon
  · exact absurd ⟨le_antisymm h2.1 hlo, h2.2⟩ hoff
  · rfl

/-- C1, amended, at `t = 55.7` with the fan on. -/
theorem deadband_keeps_state_witness :
    fanOffTemp ≤ 557 / 10 ∧ (557 / 10 : ℚ) ≤ fanOnTemp ∧
    (iteration (.ok (557 / 10)) true { fanIsOn := true, trace := [] }).fanIsOn = true :=
  ⟨by rw [fanOffTemp_eq]; norm_num, by rw [fanOnTemp_eq]; norm_num,
    deadband_keeps_state (557 / 10) { fanIsOn := true, trace := [] }
      (by rw [fanOffTemp_eq]; norm_num) (by rw [fanOnTemp_eq]; norm_num)
      (by simp) (by rw [fanOffTemp_eq]; norm_num)⟩

/-- C2: with a successful read of `t` and a successful write, the new recorded state is
`true` if `t ≥ 56.0` and the fan was off, otherwise `false` if `t ≤ 55.5` and the fan was
on, otherwise unchanged; equality at a threshold triggers the transition; the readings
`[50, 56, 55.7, 55.4, 55.6]` from the initial state give the recorded states
`[false, true, true, false, false]`. -/
theorem decision_first_match :
    (∀ (t : ℚ) (s : State),
      (iteration (.ok t) true s).fanIsOn =
        if t ≥ 56.0 ∧ s.fanIsOn = false then true
        else if t ≤ 55.5 ∧ s.fanIsOn = true then false
        else s.fanIsOn) ∧
    (∀ tr, (iteration (.ok 56.0) true { fanIsOn := false, trace := tr }).fanIsOn = true) ∧
    (∀ tr, (iteration (.ok 55.5) true { fanIsOn := true, trace := tr }).fanIsOn = false) ∧
    recordedStates [50, 56, 55.7, 55.4, 55.6] loopEntry
      = [false, true, true, false, false] := by
  refine ⟨?_, ?_, ?_, ?_⟩
  · intro t s
    rw [iteration_ok_fanIsOn]
    norm_num
  · intro tr
    rw [iteration_ok_fanIsOn]
    norm_num
  · intro tr
    rw [iteration_ok_fanIsOn]
    norm_num
  · simp only [recordedStates, iteration_ok_fanIsOn, loopEntry]
    norm_num

/-- C3: with a successful read and write, a temperature below `fanOffTemp` leaves the fan
recorded off and a temperature above `fanOnTemp` leaves it recorded on, whatever the prior
state. -/
theorem outside_band_temperature_decides (t : ℚ) (s : State) :
    (t < fanOffTemp → (iteration (.ok t) true s).fanIsOn = false) ∧
    (t > fanOnTemp → (iteration (.ok t) true s).fanIsOn = true) := by
  rw [iteration_ok_fanIsOn, fanOnTemp_eq, fanOffTemp_eq]
  constructor
  · intro h
    have h56 : ¬ (56 : ℚ) ≤ t := by linarith
    have hle : t ≤ 111 / 2 := le_of_lt h
    cases hs : s.fanIsOn <;> simp [h56, hle]
  · intro h
    have h56 : (56 : ℚ) ≤ t := le_of_lt h
    have hle : ¬ t ≤ 111 / 2 := by linarith
    cases hs : s.fanIsOn <;> simp [h56, hle]

/-- C4: the state update of an iteration with a successful read and write is idempotent
at a fixed temperature: a second cycle at the same temperature does not change the
recorded state again. -/
theorem decision_idempotent (t : ℚ) (s : State) :
    (iteration (.ok t) true (iteration (.ok t) true s)).fanIsOn
      = (iteration (.ok t) true s).fanIsOn := by
  rw [iteration_ok_fanIsOn t (iteration (.ok t) true s), iteration_ok_fanIsOn]
  by_cases h1 : (56 : ℚ) ≤ t
  · have h2 : ¬ t ≤ 111 / 2 := by linarith
    cases hs : s.fanIsOn <;> simp [h1, h2]
  · cases hs : s.fanIsOn <;> by_cases h2 : t ≤ 111 / 2 <;> simp [h1, h2]

/-! ## Recorded state and line level -/

theorem gpioWrites_append (a b : List Event) :
    gpioWrites (a ++ b) = gpioWrites a ++ gpioWrites b := by
  simp [gpioWrites, List.filterMap_append]

theorem lineLevel_append (a b : List Event) :
    lineLevel (a ++ b) = b.foldl levelStep (lineLevel a) := by
  simp [lineLevel, List.foldl_append]

theorem agrees_iteration (r : Except TempError ℚ) (w : Bool) (s : State)
    (h : Agrees s) : Agrees (iteration r w s) := by
  unfold Agrees at h ⊢
  cases r with
  | error e => simpa [iteration, lineLevel_append, levelStep] using h
  | ok t =>
    simp only [iteration]
    split_ifs <;> simp_all [lineLevel_append, levelStep]

theorem agrees_loop (cycles : List (Except TempError ℚ × Bool)) :
    ∀ s : State, Agrees s → Agrees (loop cycles s) := by
  induction cycles with
  | nil => intro s h; exact h
  | cons c cs ih =>
    intro s h
    exact ih _ (agrees_iteration c.1 c.2 s h)

/-- C5: the line level being set to 0 by the request, to `v` by a successful
`SetValue(v)` and left alone by a failed one, after any number of iterations of the loop,
whatever the read results and write outcomes, the recorded `fanIsOn` equals the level of
the line: the level is 1 when `fanIsOn` is true and 0 when it is false.  The loop starts
with `fanIsOn = false` and level 0. -/
theorem recorded_state_matches_line :
    (loopEntry.fanIsOn = false ∧ lineLevel loopEntry.trace = 0) ∧
    ∀ cycles : List (Except TempError ℚ × Bool),
      lineLevel (loop cycles loopEntry).trace
          = (if (loop cycles loopEntry).fanIsOn then 1 else 0) ∧
        ((loop cycles loopEntry).fanIsOn = true ↔
          lineLevel (loop cycles loopEntry).trace = 1) := by
  have h0 : Agrees loopEntry := by
    simp [Agrees, loopEntry, lineLevel, levelStep]
  refine ⟨⟨rfl, by simp [loopEntry, lineLevel, levelStep]⟩, ?_⟩
  intro cycles
  have h := agrees_loop cycles loopEntry h0
  unfold Agrees at h
  refine ⟨h, ?_⟩
  rw [h]
  cases (loop cycles loopEntry).fanIsOn <;> simp

/-! ## Write failures -/

/-- C6: when a transition is due (`t ≥ 56.0` with the fan off, or `t ≤ 55.5` with the fan
on) and the GPIO write fails, the recorded state is unchanged; a following iteration that
reads the same `t` attempts the same write value, and when that write succeeds the
recorded state is negated. -/
theorem failed_write_keeps_state_and_retries (t : ℚ) (s : State)
    (hdue : (t ≥ 56.0 ∧ s.fanIsOn = false) ∨ (t ≤ 55.5 ∧ s.fanIsOn = true)) :
    (iteration (.ok t) false s).fanIsOn = s.fanIsOn ∧
    gpioWrites (iteration (.ok t) false s).trace
      = gpioWrites s.trace ++ [(if s.fanIsOn then 0 else 1, false)] ∧
    gpioWrites (iteration (.ok t) true (iteration (.ok t) false s)).trace
      = gpioWrites (iteration (.ok t) false s).trace
          ++ [(if s.fanIsOn then 0 else 1, true)] ∧
    (iteration (.ok t) true (iteration (.ok t) false s)).fanIsOn = !s.fanIsOn := by
  have e1 : (56.0 : ℚ) = 56 := by norm_num
  have e2 : (55.5 : ℚ) = 111 / 2 := by norm_num
  rw [e1, e2] at hdue
  rcases hdue with ⟨ht, hs⟩ | ⟨ht, hs⟩
  · have h1 : (56 : ℚ) ≤ t := ht
    simp [iteration, fanOnTemp_eq, fanOffTemp_eq, hs, h1, gpioWrites_append, gpioWrites]
  · have h1 : ¬ (56 : ℚ) ≤ t := by linarith
    simp [iteration, fanOnTemp_eq, fanOffTemp_eq, hs, h1, ht, gpioWrites_append,
      gpioWrites]

/-- C6 at `t = 60` with the fan off. -/
theorem failed_write_keeps_state_and_retries_witness :
    ((60 : ℚ) ≥ 56.0 ∧ (State.mk false []).fanIsOn = false) ∧
    (iteration (.ok 60) false (State.mk false [])).fanIsOn = false ∧
    (iteration (.ok 60) true (iteration (.ok 60) false (State.mk false []))).fanIsOn
      = true :=
  have h : ((60 : ℚ) ≥ 56.0 ∧ (State.mk false []).fanIsOn = false) :=
    ⟨by norm_num, rfl⟩
  ⟨h, (failed_write_keeps_state_and_retries 60 (State.mk false []) (Or.inl h)).1,
    (failed_write_keeps_state_and_retries 60 (State.mk false []) (Or.inl h)).2.2.2⟩

/-! ## Read failures -/

theorem sameActuation_iteration (r : Except TempError ℚ) (w : Bool) (a b : State)
    (h : SameActuation a b) : SameActuation (iteration r w a) (iteration r w b) := by
  obtain ⟨h1, h2⟩ := h
  unfold SameActuation
  cases r with
  | error e => simp [iteration, gpioWrites_append, h1, h2]
  | ok t =>
    simp only [iteration, h1]
    split_ifs <;> simp [gpioWrites_append, h1, h2]

theorem sameActuation_failed_read (e : TempError) (w : Bool) (a b : State)
    (h : SameActuation a b) : SameActuation (iteration (.error e) w a) b := by
  obtain ⟨h1, h2⟩ := h
  simp [SameActuation, iteration, gpioWrites_append, h1, h2]
  rfl

theorem sameActuation_loop_filter (cycles : List (Except TempError ℚ × Bool)) :
    ∀ a b : State, SameActuation a b →
      SameActuation (loop cycles a) (loop (cycles.filter readOk) b) := by
  induction cycles with
  | nil => intro a b h; exact h
  | cons c cs ih =>
    intro a b h
    obtain ⟨r, w⟩ := c
    cases r with
    | error e =>
      have hf : ((Except.error e, w) :: cs).filter readOk = cs.filter readOk := by
        simp [List.filter, readOk]
      rw [hf]
      exact ih _ _ (sameActuation_failed_read e w a b h)
    | ok t =>
      have hf : ((Except.ok t, w) :: cs).filter readOk
          = (Except.ok t, w) :: cs.filter readOk := by
        simp [List.filter, readOk]
      rw [hf]
      exact ih _ _ (sameActuation_iteration (.ok t) w a b h)

/-- C7: an unreadable file makes `readCPUTemp` fail; an iteration whose temperature read
fails (whatever the error) performs no GPIO write and leaves the recorded state unchanged;
hence for every sequence of cycles the recorded state and the
sequence of GPIO writes are those of the sequence with the failed reads removed. -/
theorem failed_reads_are_skipped :
    (∀ intSize : Nat, readCPUTemp intSize none = .error .readFile) ∧
    (∀ (e : TempError) (w : Bool) (s : State),
      (iteration (.error e) w s).fanIsOn = s.fanIsOn ∧
      gpioWrites (iteration (.error e) w s).trace = gpioWrites s.trace) ∧
    (∀ (cycles : List (Except TempError ℚ × Bool)) (s : State),
      (loop cycles s).fanIsOn = (loop (cycles.filter readOk) s).fanIsOn ∧
      gpioWrites (loop cycles s).trace
        = gpioWrites (loop (cycles.filter readOk) s).trace) := by
  refine ⟨fun _ => rfl, ?_, ?_⟩
  · intro e w s
    exact sameActuation_failed_read e w s s ⟨rfl, rfl⟩
  · intro cycles s
    exact sameActuation_loop_filter cycles s s ⟨rfl, rfl⟩


/-! ## Decimal numerals and `strconv` -/

theorem isDigit_iff (c : Char) : c.isDigit = true ↔ IsDigit c := by
  simp [IsDigit, Char.isDigit, Char.le_def]

theorem digitChar_spec (k : Nat) (hk : k < 10) :
    IsDigit (Nat.digitChar k) ∧ (Nat.digitChar k).toNat - '0'.toNat = k := by
  unfold IsDigit
  interval_cases k <;> decide

theorem digitsValue_append (acc : Nat) (a b : List Char) :
    digitsValue acc (a ++ b) = digitsValue (digitsValue acc a) b := by
  simp [digitsValue, List.foldl_append]

theorem le_digitsValue (cs : List Char) : ∀ acc, acc * 10 ^ cs.length ≤ digitsValue acc cs := by
  induction cs with
  | nil => intro acc; simp [digitsValue]
  | cons c cs ih =>
    intro acc
    have h := ih (acc * 10 + (c.toNat - '0'.toNat))
    simp only [digitsValue, List.foldl_cons, List.length_cons] at h ⊢
    calc acc * 10 ^ (cs.length + 1) = acc * 10 * 10 ^ cs.length := by ring
      _ ≤ (acc * 10 + (c.toNat - '0'.toNat)) * 10 ^ cs.length :=
          Nat.mul_le_mul_right _ (Nat.le_add_right _ _)
      _ ≤ _ := h

theorem acc_le_digitsValue (cs : List Char) (acc : Nat) : acc ≤ digitsValue acc cs :=
  le_trans (Nat.le_mul_of_pos_right acc (by positivity)) (le_digitsValue cs acc)

/-- The digits that `Nat.toDigitsCore` puts in front of `ds`. -/
theorem toDigitsCore_spec (fuel : Nat) : ∀ (n : Nat) (ds : List Char), n < fuel →
    ∃ pre : List Char, Nat.toDigitsCore 10 fuel n ds = pre ++ ds ∧ pre ≠ [] ∧
      (∀ c ∈ pre, IsDigit c) ∧ digitsValue 0 pre = n := by
  induction fuel with
  | zero => intro n ds h; omega
  | succ fuel ih =>
    intro n ds h
    have hd := digitChar_spec (n % 10) (Nat.mod_lt _ (by decide))
    simp only [Nat.toDigitsCore]
    by_cases h0 : n / 10 = 0
    · refine ⟨[Nat.digitChar (n % 10)], by simp [h0], by simp, ?_, ?_⟩
      · intro c hc
        simp only [List.mem_singleton] at hc
        rw [hc]; exact hd.1
      · simp only [digitsValue, List.foldl_cons, List.foldl_nil, hd.2]
        omega
    · obtain ⟨pre, h1, _, h3, h4⟩ := ih (n / 10) (Nat.digitChar (n % 10) :: ds) (by omega)
      refine ⟨pre ++ [Nat.digitChar (n % 10)], by simp [h0, h1], by simp, ?_, ?_⟩
      · intro c hc
        rcases List.mem_append.1 hc with hc | hc
        · exact h3 c hc
        · simp only [List.mem_singleton] at hc
          rw [hc]; exact hd.1
      · rw [digitsValue_append, h4]
        simp only [digitsValue, List.foldl_cons, List.foldl_nil, hd.2]
        omega

theorem toDigits_spec (n : Nat) :
    Nat.toDigits 10 n ≠ [] ∧ (∀ c ∈ Nat.toDigits 10 n, IsDigit c) ∧
      digitsValue 0 (Nat.toDigits 10 n) = n := by
  obtain ⟨pre, h1, h2, h3, h4⟩ := toDigitsCore_spec (n + 1) n [] (Nat.lt_succ_self n)
  rw [List.append_nil] at h1
  unfold Nat.toDigits
  rw [h1]
  exact ⟨h2, h3, h4⟩

/-- On a list of digits whose value fits, the loop of `ParseUint` returns the value. -/
theorem parseUintLoop_digits (maxVal : Nat) (hmax : maxVal ≤ maxUint64) (cs : List Char) :
    ∀ acc, (∀ c ∈ cs, IsDigit c) → digitsValue acc cs ≤ maxVal →
      parseUintLoop maxVal cs acc = (digitsValue acc cs, none) := by
  induction cs with
  | nil => intro acc _ _; rfl
  | cons c cs ih =>
    intro acc hd hv
    have hc : '0' ≤ c ∧ c ≤ '9' := hd c (List.mem_cons_self _ _)
    have hv1 : digitsValue (acc * 10 + (c.toNat - '0'.toNat)) cs ≤ maxVal := hv
    have hle := acc_le_digitsValue cs (acc * 10 + (c.toNat - '0'.toNat))
    have h64 : acc * 10 + (c.toNat - '0'.toNat) ≤ 2 ^ 64 - 1 := by
      unfold maxUint64 at hmax; omega
    have hrec := ih (acc * 10 + (c.toNat - '0'.toNat))
      (fun x hx => hd x (List.mem_cons_of_mem _ hx)) hv1
    have hm1 : acc * 10 % 2 ^ 64 = acc * 10 := Nat.mod_eq_of_lt (by omega)
    have hm2 : (acc * 10 + (c.toNat - '0'.toNat)) % 2 ^ 64
        = acc * 10 + (c.toNat - '0'.toNat) := Nat.mod_eq_of_lt (by omega)
    have hcut : ¬ acc ≥ maxUint64 / 10 + 1 := by
      unfold maxUint64; omega
    have hno : ¬ (acc * 10 + (c.toNat - '0'.toNat) < acc * 10 ∨
        acc * 10 + (c.toNat - '0'.toNat) > maxVal) := by omega
    simp only [parseUintLoop, hc, and_self, if_true, hcut, if_false, hm1, hm2, hno, hrec]
    rfl

/-- On a list with a character that is not a digit, the loop of `ParseUint` fails. -/
theorem parseUintLoop_invalid (maxVal : Nat) (cs : List Char) :
    ∀ acc, (∃ c ∈ cs, ¬ IsDigit c) →
      parseUintLoop maxVal cs acc = (0, some .invalidDigits) ∨
        parseUintLoop maxVal cs acc = (maxVal, some .outOfRange) := by
  induction cs with
  | nil => intro acc h; obtain ⟨c, hc, _⟩ := h; simp at hc
  | cons c cs ih =>
    intro acc h
    by_cases hc : '0' ≤ c ∧ c ≤ '9'
    · have hrest : ∃ x ∈ cs, ¬ IsDigit x := by
        obtain ⟨x, hx, hnx⟩ := h
        rcases List.mem_cons.1 hx with hx | hx
        · exact absurd (hx ▸ hc) hnx
        · exact ⟨x, hx, hnx⟩
      simp only [parseUintLoop, hc, and_self, if_true]
      split_ifs
      · right; rfl
      · right; rfl
      · exact ih _ hrest
    · left
      simp [parseUintLoop, hc]

/-! ### `TrimSpace` -/

theorem dropWhile_space_append (ws : List Char) (a : Char) (l : List Char)
    (hws : ∀ c ∈ ws, isSpace c = true) (ha : isSpace a = false) :
    (ws ++ a :: l).dropWhile isSpace = a :: l := by
  induction ws with
  | nil => simp [List.dropWhile, ha]
  | cons w ws ih =>
    have hw : isSpace w = true := hws w (List.mem_cons_self _ _)
    simp only [List.cons_append, List.dropWhile, hw]
    exact ih (fun c hc => hws c (List.mem_cons_of_mem _ hc))

theorem dropWhile_space_append_of_forall (ws l : List Char) (hl : l ≠ [])
    (hws : ∀ c ∈ ws, isSpace c = true) (hns : ∀ c ∈ l, isSpace c = false) (m : List Char) :
    (ws ++ (l ++ m)).dropWhile isSpace = l ++ m := by
  cases l with
  | nil => exact absurd rfl hl
  | cons a l =>
    exact dropWhile_space_append ws a (l ++ m) hws (hns a (List.mem_cons_self _ _))

/-- A text without white space, surrounded by white space, is what `TrimSpace` keeps. -/
theorem TrimSpace_surrounded (ws1 l ws2 : List Char) (hl : l ≠ [])
    (h1 : ∀ c ∈ ws1, isSpace c = true) (h2 : ∀ c ∈ ws2, isSpace c = true)
    (hns : ∀ c ∈ l, isSpace c = false) :
    TrimSpace (ws1 ++ l ++ ws2) = l := by
  unfold TrimSpace
  rw [List.append_assoc, dropWhile_space_append_of_forall ws1 l hl h1 hns ws2,
    List.reverse_append]
  have h := dropWhile_space_append_of_forall ws2.reverse l.reverse (by simpa using hl)
    (fun c hc => h2 c (List.mem_reverse.1 hc)) (fun c hc => hns c (List.mem_reverse.1 hc)) []
  rw [List.append_nil] at h
  rw [h, List.reverse_reverse]

theorem isDigit_toNat (c : Char) (h : IsDigit c) : 48 ≤ c.toNat ∧ c.toNat ≤ 57 := by
  obtain ⟨h1, h2⟩ := h
  rw [Char.le_def, UInt32.le_def] at h1 h2
  exact ⟨h1, h2⟩

theorem isSpace_of_isDigit (c : Char) (h : IsDigit c) : isSpace c = false := by
  have h1 := isDigit_toNat c h
  simp only [isSpace, Bool.or_eq_false_iff, Bool.and_eq_false_iff, decide_eq_false_iff_not,
    beq_eq_false_iff_ne]
  omega

/-! ### `ParseInt` and `Atoi` -/

theorem isDigit_not_sign (c : Char) (h : IsDigit c) : c ≠ '+' ∧ c ≠ '-' := by
  have h1 := isDigit_toNat c h
  constructor
  · intro e; rw [e] at h1; revert h1; decide
  · intro e; rw [e] at h1; revert h1; decide

theorem maxVal_32 : (2 ^ 32 % 2 ^ 64 + 2 ^ 64 - 1) % 2 ^ 64 = 2 ^ 32 - 1 := by norm_num

theorem maxVal_64 : (2 ^ 64 % 2 ^ 64 + 2 ^ 64 - 1) % 2 ^ 64 = 2 ^ 64 - 1 := by norm_num

theorem ParseUint_digits (w : Nat) (hw : w = 32 ∨ w = 64) (ds : List Char) (hne : ds ≠ [])
    (hd : ∀ c ∈ ds, IsDigit c) (hv : digitsValue 0 ds < 2 ^ w) :
    ParseUint w ds = (digitsValue 0 ds, none) := by
  unfold ParseUint
  rw [if_neg hne]
  apply parseUintLoop_digits _ _ ds 0 hd
  · rcases hw with rfl | rfl
    · rw [maxVal_32]; omega
    · rw [maxVal_64]; omega
  · rcases hw with rfl | rfl
    · rw [maxVal_32]; unfold maxUint64; omega
    · rw [maxVal_64]; unfold maxUint64; omega

theorem wrapInt_of_range (w : Nat) (hw : 0 < w) (x : Int)
    (h1 : -2 ^ (w - 1) ≤ x) (h2 : x < 2 ^ (w - 1)) : wrapInt w x = x := by
  unfold wrapInt
  have hp : (2 : Int) ^ w = 2 * 2 ^ (w - 1) := by
    obtain ⟨k, rfl⟩ : ∃ k, w = k + 1 := ⟨w - 1, by omega⟩
    simp [pow_succ]; ring
  rw [Int.emod_eq_of_lt (by linarith) (by linarith)]
  ring

theorem pow_pred_lt (w : Nat) (hw : w = 32 ∨ w = 64) :
    (2 : Int) ^ (w - 1) ≤ 2 ^ 63 ∧ 2 ^ (w - 1) < 2 ^ w ∧ 0 < w := by
  rcases hw with rfl | rfl <;> norm_num

theorem Atoi_nonneg (w : Nat) (hw : w = 32 ∨ w = 64) (ds : List Char) (hne : ds ≠ [])
    (hd : ∀ c ∈ ds, IsDigit c) (hv : (digitsValue 0 ds : Int) < 2 ^ (w - 1)) :
    Atoi w ds = ((digitsValue 0 ds : Int), none) := by
  obtain ⟨hp1, hp2, hw0⟩ := pow_pred_lt w hw
  have hvn : digitsValue 0 ds < 2 ^ (w - 1) := by exact_mod_cast hv
  have hp2n : 2 ^ (w - 1) < 2 ^ w := by exact_mod_cast hp2
  have hU := ParseUint_digits w hw ds hne hd (lt_trans hvn hp2n)
  cases ds with
  | nil => exact absurd rfl hne
  | cons c rest =>
    obtain ⟨hplus, hminus⟩ := isDigit_not_sign c (hd c (List.mem_cons_self _ _))
    have hge : ¬ (digitsValue 0 (c :: rest) ≥ 2 ^ (w - 1)) := by omega
    have hnn : (0 : Int) ≤ (digitsValue 0 (c :: rest) : Int) := Int.natCast_nonneg _
    have hw64 : wrapInt 64 (digitsValue 0 (c :: rest) : Int) = digitsValue 0 (c :: rest) :=
      wrapInt_of_range 64 (by norm_num) _ (by norm_num; linarith) (by norm_num; linarith)
    have hww : wrapInt w (digitsValue 0 (c :: rest) : Int) = digitsValue 0 (c :: rest) :=
      wrapInt_of_range w hw0 _ (by linarith [pow_pos (by norm_num : (0 : Int) < 2) (w - 1)]) hv
    simp [Atoi, ParseInt, hplus, hminus, hU, hge, hw64, hww]

theorem Atoi_neg (w : Nat) (hw : w = 32 ∨ w = 64) (ds : List Char) (hne : ds ≠ [])
    (hd : ∀ c ∈ ds, IsDigit c) (hv : (digitsValue 0 ds : Int) ≤ 2 ^ (w - 1)) :
    Atoi w ('-' :: ds) = (-(digitsValue 0 ds : Int), none) := by
  obtain ⟨hp1, hp2, hw0⟩ := pow_pred_lt w hw
  have hvn : digitsValue 0 ds ≤ 2 ^ (w - 1) := by exact_mod_cast hv
  have hp2n : 2 ^ (w - 1) < 2 ^ w := by exact_mod_cast hp2
  have hU := ParseUint_digits w hw ds hne hd (lt_of_le_of_lt hvn hp2n)
  have hgt : ¬ (digitsValue 0 ds > 2 ^ (w - 1)) := by omega
  have hnn : (0 : Int) ≤ (digitsValue 0 ds : Int) := Int.natCast_nonneg _
  have hw64 : wrapInt 64 (-wrapInt 64 (digitsValue 0 ds : Int)) = -(digitsValue 0 ds : Int) := by
    have h63 : (digitsValue 0 ds : Int) ≤ 2 ^ 63 := le_trans hv hp1
    unfold wrapInt
    norm_num at h63 ⊢
    omega
  have hww : wrapInt w (-(digitsValue 0 ds : Int)) = -(digitsValue 0 ds : Int) :=
    wrapInt_of_range w hw0 _ (by linarith)
      (by linarith [pow_pos (by norm_num : (0 : Int) < 2) (w - 1)])
  simp [Atoi, ParseInt, hU, hgt, hw64, hww]

theorem ParseUint_invalid (w : Nat) (s : List Char)
    (h : s = [] ∨ ∃ c ∈ s, ¬ IsDigit c) :
    ParseUint w s = (0, some .invalidDigits) ∨
      ParseUint w s = ((2 ^ w % 2 ^ 64 + 2 ^ 64 - 1) % 2 ^ 64, some .outOfRange) := by
  unfold ParseUint
  by_cases hs : s = []
  · left; rw [if_pos hs]
  · rw [if_neg hs]
    rcases h with h | h
    · exact absurd h hs
    · exact parseUintLoop_invalid _ s 0 h

theorem ParseInt_invalid (w : Nat) (hw : w = 32 ∨ w = 64) (c : Char) (rest : List Char)
    (h : ParseUint w (if c == '+' || c == '-' then rest else c :: rest)
          = (0, some .invalidDigits) ∨
        ParseUint w (if c == '+' || c == '-' then rest else c :: rest)
          = ((2 ^ w % 2 ^ 64 + 2 ^ 64 - 1) % 2 ^ 64, some .outOfRange)) :
    (ParseInt w (c :: rest)).2 ≠ none := by
  rcases h with h | h
  · simp only [Bool.or_eq_true, beq_iff_eq] at h
    simp [ParseInt, h]
  · rcases hw with rfl | rfl
    · rw [maxVal_32] at h
      by_cases hc : c = '-'
      · simp [hc] at h
        simp [ParseInt, h, hc]
      · simp [hc] at h
        simp [ParseInt, h, hc]
    · rw [maxVal_64] at h
      by_cases hc : c = '-'
      · simp [hc] at h
        simp [ParseInt, h, hc]
      · simp [hc] at h
        simp [ParseInt, h, hc]

theorem Atoi_invalid (w : Nat) (hw : w = 32 ∨ w = 64) (s : List Char)
    (h : validDecimal s = false) : (Atoi w s).2 ≠ none := by
  have hA : ∀ x, (Atoi w x).2 = (ParseInt w x).2 := fun x => rfl
  rw [hA]
  cases s with
  | nil => simp [ParseInt]
  | cons c rest =>
    apply ParseInt_invalid w hw c rest
    apply ParseUint_invalid
    simp only [validDecimal] at h
    by_cases hc : c = '+' ∨ c = '-'
    · have hb : (c == '+' || c == '-') = true := by
        rcases hc with hc | hc <;> simp [hc]
      rw [if_pos hc] at h
      rw [hb, if_pos rfl]
      cases rest with
      | nil => left; rfl
      | cons d rest =>
        right
        simp only [List.isEmpty_cons, Bool.not_false, Bool.true_and] at h
        obtain ⟨x, hx, hnx⟩ := List.all_eq_false.1 h
        exact ⟨x, hx, fun hd => hnx ((isDigit_iff x).2 hd)⟩
    · have hb : (c == '+' || c == '-') = false := by
        simp only [not_or] at hc
        simp [hc.1, hc.2]
      rw [if_neg hc] at h
      rw [hb]
      right
      obtain ⟨x, hx, hnx⟩ := List.all_eq_false.1 h
      exact ⟨x, hx, fun hd => hnx ((isDigit_iff x).2 hd)⟩

/-! ## `readCPUTemp` -/

theorem decimal_spec (n : Int) :
    decimal n ≠ [] ∧ (∀ c ∈ decimal n, isSpace c = false) := by
  obtain ⟨h1, h2, _⟩ := toDigits_spec n.natAbs
  unfold decimal
  split_ifs
  · refine ⟨by simp, ?_⟩
    intro c hc
    rcases List.mem_cons.1 hc with hc | hc
    · rw [hc]; decide
    · exact isSpace_of_isDigit c (h2 c hc)
  · exact ⟨h1, fun c hc => isSpace_of_isDigit c (h2 c hc)⟩

theorem Atoi_decimal (w : Nat) (hw : w = 32 ∨ w = 64) (n : Int)
    (hlo : -2 ^ (w - 1) ≤ n) (hhi : n < 2 ^ (w - 1)) :
    Atoi w (decimal n) = (n, none) := by
  obtain ⟨h1, h2, h3⟩ := toDigits_spec n.natAbs
  unfold decimal
  split_ifs with hn
  · have habs : (n.natAbs : Int) = -n := by omega
    have h := Atoi_neg w hw (Nat.toDigits 10 n.natAbs) h1 h2
      (by rw [h3, habs]; linarith)
    rw [h, h3, habs, neg_neg]
  · have habs : (n.natAbs : Int) = n := by omega
    have h := Atoi_nonneg w hw (Nat.toDigits 10 n.natAbs) h1 h2
      (by rw [h3, habs]; exact hhi)
    rw [h, h3, habs]

theorem readCPUTemp_decimal (w : Nat) (hw : w = 32 ∨ w = 64) (n : Int)
    (ws1 ws2 : List Char) (hlo : -2 ^ (w - 1) ≤ n) (hhi : n < 2 ^ (w - 1))
    (h1 : ∀ c ∈ ws1, isSpace c = true) (h2 : ∀ c ∈ ws2, isSpace c = true) :
    readCPUTemp w (some (ws1 ++ decimal n ++ ws2)) = .ok ((n : ℚ) / 1000) := by
  obtain ⟨hne, hns⟩ := decimal_spec n
  simp only [readCPUTemp, TrimSpace_surrounded ws1 (decimal n) ws2 hne h1 h2 hns,
    Atoi_decimal w hw n hlo hhi]

theorem readCPUTemp_invalid (w : Nat) (hw : w = 32 ∨ w = 64) (content : List Char)
    (h : validDecimal (TrimSpace content) = false) :
    ∃ e, readCPUTemp w (some content) = .error e := by
  have hA := Atoi_invalid w hw (TrimSpace content) h
  simp only [readCPUTemp]
  cases hr : Atoi w (TrimSpace content) with
  | mk v err =>
    rw [hr] at hA
    cases err with
    | none => exact absurd rfl hA
    | some e => exact ⟨.parse e, rfl⟩

/-- C10: for `int` of 32 or 64 bits and every integer `n` in its range, when the sensor
file holds the decimal numeral of `n` (with a leading `-` when negative), optionally
surrounded by white space, `readCPUTemp` returns the temperature `n / 1000` and no error
(`"55000"` gives 55.0, `"56001"` gives 56.001); when the trimmed content is not a base-10
integer numeral, `readCPUTemp` returns an error. -/
theorem readCPUTemp_parses_decimal (w : Nat) (hw : w = 32 ∨ w = 64) :
    (∀ (n : Int) (ws1 ws2 : List Char), -2 ^ (w - 1) ≤ n → n < 2 ^ (w - 1) →
        (∀ c ∈ ws1, isSpace c = true) → (∀ c ∈ ws2, isSpace c = true) →
        readCPUTemp w (some (ws1 ++ decimal n ++ ws2)) = .ok ((n : ℚ) / 1000)) ∧
    readCPUTemp w (some ['5', '5', '0', '0', '0']) = .ok 55.0 ∧
    readCPUTemp w (some ['5', '6', '0', '0', '1']) = .ok 56.001 ∧
    (∀ content : List Char, validDecimal (TrimSpace content) = false →
        ∃ e, readCPUTemp w (some content) = .error e) := by
  have hr : (-2 : Int) ^ (w - 1) ≤ 0 ∧ (60000 : Int) < 2 ^ (w - 1) := by
    rcases hw with rfl | rfl <;> norm_num
  have hr2 : -(2 : Int) ^ (w - 1) ≤ 0 := by
    rcases hw with rfl | rfl <;> norm_num
  refine ⟨fun n ws1 ws2 hlo hhi h1 h2 => readCPUTemp_decimal w hw n ws1 ws2 hlo hhi h1 h2,
    ?_, ?_, fun content h => readCPUTemp_invalid w hw content h⟩
  · have h := readCPUTemp_decimal w hw 55000 [] [] (by linarith) (by linarith)
      (by simp) (by simp)
    have hd : ([] : List Char) ++ decimal 55000 ++ [] = ['5', '5', '0', '0', '0'] := by
      decide
    rw [hd] at h
    rw [h]
    norm_num
  · have h := readCPUTemp_decimal w hw 56001 [] [] (by linarith) (by linarith)
      (by simp) (by simp)
    have hd : ([] : List Char) ++ decimal 56001 ++ [] = ['5', '6', '0', '0', '1'] := by
      decide
    rw [hd] at h
    rw [h]
    norm_num

/-- C10 for a 64-bit `int`, on the content `" -1500\n"` and on the content `"5x"`. -/
theorem readCPUTemp_parses_decimal_witness :
    (64 = 32 ∨ 64 = 64) ∧
    readCPUTemp 64 (some ([' '] ++ decimal (-1500) ++ ['\n']))
      = .ok (((-1500 : Int) : ℚ) / 1000) ∧
    (∃ e, readCPUTemp 64 (some ['5', 'x']) = .error e) :=
  ⟨by decide,
    (readCPUTemp_parses_decimal 64 (by decide)).1 (-1500) [' '] ['\n']
      (by norm_num) (by norm_num) (by decide) (by decide),
    (readCPUTemp_parses_decimal 64 (by decide)).2.2.2 ['5', 'x'] (by decide)⟩

/-! ## Acquisition failures and shutdown -/

theorem readCPUTemp_56000 :
    readCPUTemp 64 (some ['5', '6', '0', '0', '0', '\n']) = .ok 56 := by
  have h := readCPUTemp_decimal 64 (Or.inr rfl) 56000 [] ['\n'] (by norm_num) (by norm_num)
    (by simp) (by decide)
  have hd : ([] : List Char) ++ decimal 56000 ++ ['\n'] = ['5', '6', '0', '0', '0', '\n'] := by
    decide
  rw [hd] at h
  rw [h]
  norm_num

/-- C8, the code at the failing input: both acquisitions succeed, the sensor reads
`56000` and the fan is switched on, then the process is terminated from outside.  The
loop has no exit, so the two deferred functions are still pending: the last GPIO write is
1, the line is high, and neither the line nor the chip was closed.  Had the deferred
functions run, they would have written 0, closed the line and closed the chip, in this
order, also when the write fails. -/
theorem shutdown_while_on_leaves_line_high :
    (main ⟨64, true, true, [⟨some ['5', '6', '0', '0', '0', '\n'], true⟩]⟩).trace
      = [.newChip true, .requestLine 78 0 true, .setValue 1 true, .sleep] ∧
    (main ⟨64, true, true, [⟨some ['5', '6', '0', '0', '0', '\n'], true⟩]⟩).fanIsOn = true ∧
    gpioWrites (main ⟨64, true, true, [⟨some ['5', '6', '0', '0', '0', '\n'], true⟩]⟩).trace
      = [(1, true)] ∧
    lineLevel (main ⟨64, true, true, [⟨some ['5', '6', '0', '0', '0', '\n'], true⟩]⟩).trace
      = 1 ∧
    (main ⟨64, true, true, [⟨some ['5', '6', '0', '0', '0', '\n'], true⟩]⟩).pending
      = [.releaseLine, .closeChip] ∧
    unwind true [.releaseLine, .closeChip] = [.setValue 0 true, .lineClose, .chipClose] ∧
    unwind false [.releaseLine, .closeChip]
      = [.setValue 0 false, .logPrintf .releaseWarning, .lineClose, .chipClose] := by
  have ht : (main ⟨64, true, true, [⟨some ['5', '6', '0', '0', '0', '\n'], true⟩]⟩).trace
      = [.newChip true, .requestLine 78 0 true, .setValue 1 true, .sleep] := by
    simp [main, loop, readCPUTemp_56000, iteration, loopEntry, fanOnTemp_eq, lineNumber]
  have hf : (main ⟨64, true, true, [⟨some ['5', '6', '0', '0', '0', '\n'], true⟩]⟩).fanIsOn
      = true := by
    simp [main, loop, readCPUTemp_56000, iteration, loopEntry, fanOnTemp_eq]
  refine ⟨ht, hf, ?_, ?_, rfl, rfl, rfl⟩
  · rw [ht]; rfl
  · rw [ht]; rfl

/-- C9, the code at the failing input: the chip opens and the line request fails.
`log.Fatalf` ends the process through `os.Exit(1)`, which does not run deferred
functions: the deferred close of the chip is still pending and the trace has no
`chip.Close()`.  No line write and no line release is attempted either. -/
theorem line_request_failure_skips_chip_close :
    (main ⟨64, true, false, []⟩).trace
      = [.newChip true, .requestLine 78 0 false, .logPrintf .lineRequestFatal, .osExit 1] ∧
    (main ⟨64, true, false, []⟩).exitCode = some 1 ∧
    (main ⟨64, true, false, []⟩).pending = [.closeChip] ∧
    Event.chipClose ∉ (main ⟨64, true, false, []⟩).trace ∧
    gpioWrites (main ⟨64, true, false, []⟩).trace = [] ∧
    Event.lineClose ∉ (main ⟨64, true, false, []⟩).trace := by
  refine ⟨rfl, rfl, rfl, by decide, rfl, by decide⟩

end FanControl
